import Mathlib

/-!
Shallow embedding of the inventory-export server (src/server.js, first
revision, the one the spec was written from) together with proofs of the
spec claims.

Conventions of the embedding:
- JS strings are Lean `String`s; JS `null`/`undefined` on a field is
  `Option`; JS falsiness of a string (`s ? … : …`) is the test `s ≠ ""`.
- GraphQL edge/node wrappers are dropped: a connection is embedded as the
  list of its nodes, and pagination (the `hasNextPage`/`endCursor` loop)
  is embedded by letting the fetchers consume the already-concatenated
  list of nodes of all pages, which is exactly what the loops accumulate.
- A JS `Map` is an insertion-ordered association list `List (String × Int)`
  with `mapGet`/`mapSet` below; a plain JS object used as a dictionary is
  a function `String → Option Int`.
-/

namespace InventoryExport

/-! ## Remote data model (shapes returned by the two GraphQL queries) -/

/-- One entry of `InventoryLevel.quantities(names: ["available"])`. -/
structure QuantityEntry where
  name : String
  quantity : Int
deriving DecidableEq

/-- One inventory level node; `quantities` may be absent
(`lev.node.quantities || []` in the source). -/
structure InventoryLevel where
  quantities : Option (List QuantityEntry)
deriving DecidableEq

/-- `inventoryItem.unitCost { amount currencyCode }`. -/
structure UnitCost where
  amount : String
  currencyCode : String
deriving DecidableEq

/-- `variant.inventoryItem { tracked unitCost inventoryLevels }`. -/
structure InventoryItem where
  tracked : Bool
  unitCost : Option UnitCost
  inventoryLevels : Option (List InventoryLevel)
deriving DecidableEq

/-- A product variant node of the products page query. -/
structure Variant where
  id : String
  sku : Option String
  inventoryItem : Option InventoryItem
deriving DecidableEq

/-- A product metafield node (`{ value }`). -/
structure Metafield where
  value : String
deriving DecidableEq

/-- A product node of the products page query. -/
structure Product where
  id : String
  title : String
  vendor : String
  vendorInvoiceDate : Option Metafield
  vendorInvoiceNumber : Option Metafield
  variants : List Variant
deriving DecidableEq

/-- `li.variant { id sku }` of an order line item. -/
structure VariantRef where
  id : String
  sku : Option String
deriving DecidableEq

/-- An order line item node of the orders page query. -/
structure LineItem where
  quantity : Int
  sku : Option String
  variant : Option VariantRef
deriving DecidableEq

/-- An order node of the orders page query. -/
structure Order where
  id : String
  createdAt : String
  lineItems : List LineItem
deriving DecidableEq

/-! ## Catalog fetch (`fetchAllProductsAndInventory`, server.js lines 324-374) -/

/-- `p.vendorInvoiceDate?.value || null`: absent metafield or empty string
value collapses to null. -/
def metaValueOrNull : Option Metafield → Option String
  | none => none
  | some m => if m.value = "" then none else some m.value

/-- `v.inventoryItem?.tracked !== true` is the skip condition; a variant is
kept exactly when its inventory item exists and reports tracked = true. -/
def trackedTrue (v : Variant) : Bool :=
  match v.inventoryItem with
  | some item => item.tracked
  | none => false

/-- `v.inventoryItem?.inventoryLevels?.edges || []`. -/
def variantLevels (v : Variant) : List InventoryLevel :=
  (v.inventoryItem.bind (fun item => item.inventoryLevels)).getD []

/-- Contribution of one level:
`(qList.find(q => q.name === 'available'))?.quantity ?? 0`. -/
def levelAvailable (lev : InventoryLevel) : Int :=
  match (lev.quantities.getD []).find? (fun q => q.name = "available") with
  | some q => q.quantity
  | none => 0

/-- `levels.reduce((sum, lev) => sum + …, 0)`: the ending quantity of one
variant, summed across its inventory levels. -/
def endingQtyOf (v : Variant) : Int :=
  (variantLevels v).foldl (fun sum lev => sum + levelAvailable lev) 0

/-- One sellable tracked unit as accumulated by the catalog fetch
(the object pushed at server.js lines 353-364). -/
structure VariantRecord where
  productId : String
  productTitle : String
  productVendor : String
  vendorInvoiceDate : Option String
  vendorInvoiceNumber : Option String
  variantId : String
  variantSku : Option String
  unitCost : Option String
  unitCostCurrency : Option String
  endingQty : Int
deriving DecidableEq

/-- The record pushed for one (product, tracked variant) pair. -/
def variantToRecord (p : Product) (v : Variant) : VariantRecord where
  productId := p.id
  productTitle := p.title
  productVendor := p.vendor
  vendorInvoiceDate := metaValueOrNull p.vendorInvoiceDate
  vendorInvoiceNumber := metaValueOrNull p.vendorInvoiceNumber
  variantId := v.id
  variantSku := v.sku
  unitCost := (v.inventoryItem.bind (fun item => item.unitCost)).map (fun c => c.amount)
  unitCostCurrency := (v.inventoryItem.bind (fun item => item.unitCost)).map (fun c => c.currencyCode)
  endingQty := endingQtyOf v

/-- The full catalog fetch over the concatenated product nodes of all
pages: for each product, each variant whose inventory is tracked yields
one VariantRecord, in traversal order; untracked variants are skipped. -/
def fetchAllProductsAndInventory (products : List Product) : List VariantRecord :=
  (products.map (fun p => (p.variants.filter trackedTrue).map (variantToRecord p))).flatten

/-! ## JS Map as an insertion-ordered association list -/

/-- The association-list representation of a JS `Map` with string keys and
number values. -/
abbrev SalesMap := List (String × Int)

/-- `m.get(k)`: first entry with the key, if any. -/
def mapGet (m : SalesMap) (k : String) : Option Int :=
  (m.find? (fun e => e.1 = k)).map (fun e => e.2)

/-- `m.set(k, v)`: overwrite an existing entry in place, else append. -/
def mapSet : SalesMap → String → Int → SalesMap
  | [], k, v => [(k, v)]
  | e :: rest, k, v => if e.1 = k then (k, v) :: rest else e :: mapSet rest k v

/-! ## Sales fetch (`fetchUnitsSold`, server.js lines 376-410) -/

/-- `(s || '').split('T')[0]`: the prefix of the instant before the first
letter T, i.e. the calendar-date part of an ISO-8601 instant. -/
def toDateOnly (s : String) : String :=
  String.mk (s.data.takeWhile (fun c => c ≠ 'T'))

/-- The orders search string built at server.js line 381. -/
def ordersSearchQuery (sinceISO untilISO : String) : String :=
  "created_at:" ++ toDateOnly sinceISO ++ ".." ++ toDateOnly untilISO ++
    " financial_status:paid -status:cancelled"

/-- The date-window actually applied to the orders query. -/
def salesWindow (sinceISO untilISO : String) : String × String :=
  (toDateOnly sinceISO, toDateOnly untilISO)

/-- Metadata of one remote order, as far as the search filter reads it. -/
structure OrderMeta where
  createdDate : String
  financialStatus : String
  cancelled : Bool
deriving DecidableEq

/-- Modelled from the spec: the remote orders collection (an external
collaborator, not code of this repository) evaluates the filter
`created_at:A..B financial_status:paid -status:cancelled` by selecting
exactly the orders created within [A, B] inclusive whose financial status
is paid and which are not cancelled. -/
def searchSelects (sinceDate untilDate : String) (o : OrderMeta) : Bool :=
  decide (sinceDate ≤ o.createdDate) && decide (o.createdDate ≤ untilDate) &&
    (o.financialStatus = "paid") && (!o.cancelled)

/-- `li.variant?.id || (li.sku ? 'SKU:' + li.sku : null)`: the join key of
one order line item. -/
def lineItemKey (li : LineItem) : Option String :=
  match li.variant with
  | some vr =>
      if vr.id = "" then
        match li.sku with
        | some s => if s = "" then none else some ("SKU:" ++ s)
        | none => none
      else some vr.id
  | none =>
      match li.sku with
      | some s => if s = "" then none else some ("SKU:" ++ s)
      | none => none

/-- Folding one line item into the running sales map
(`byVariant.set(vId, (byVariant.get(vId) || 0) + (li.quantity || 0))`,
skipped when no key resolves). -/
def addLineItem (m : SalesMap) (li : LineItem) : SalesMap :=
  match lineItemKey li with
  | none => m
  | some k => mapSet m k ((mapGet m k).getD 0 + li.quantity)

/-- The sales aggregation over the concatenated order nodes of all pages
returned for the search query. -/
def fetchUnitsSold (orders : List Order) : SalesMap :=
  orders.foldl (fun m o => o.lineItems.foldl addLineItem m) []

/-! ## Report builder (`buildReportRows`, server.js lines 472-493) -/

/-- A snapshot object as read back from Mongo or from the JSON file:
a plain JS object used as a dictionary {variantId → qty}. -/
abbrev Snapshot := String → Option Int

/-- One output row (the object literal at server.js lines 478-489). -/
structure ReportRow where
  vendor : String
  vendor_invoice_date : Option String
  vendor_invoice_number : Option String
  product_title : String
  product_variant_sku : Option String
  unit_cost : Option String
  unit_cost_currency : Option String
  starting_inventory_qty : Option Int
  ending_inventory_qty : Int
  units_sold : Int
deriving DecidableEq

/-- `r.variantId || (r.variantSku ? 'SKU:' + r.variantSku : null)`: the
catalog-side join key of server.js line 474. -/
def rowJoinKey (r : VariantRecord) : Option String :=
  if r.variantId = "" then
    match r.variantSku with
    | some s => if s = "" then none else some ("SKU:" ++ s)
    | none => none
  else some r.variantId

/-- The row built from one VariantRecord (server.js lines 473-489). -/
def mkReportRow (unitsSoldMap : SalesMap) (startSnapshot : Option Snapshot)
    (r : VariantRecord) : ReportRow where
  vendor := r.productVendor
  vendor_invoice_date := r.vendorInvoiceDate
  vendor_invoice_number := r.vendorInvoiceNumber
  product_title := r.productTitle
  product_variant_sku := r.variantSku
  unit_cost := r.unitCost
  unit_cost_currency := r.unitCostCurrency
  starting_inventory_qty :=
    match startSnapshot with
    | some snap => if r.variantId = "" then none else snap r.variantId
    | none => none
  ending_inventory_qty := r.endingQty
  units_sold :=
    match rowJoinKey r with
    | some k => (mapGet unitsSoldMap k).getD 0
    | none => 0

/-- `productRows.map(r => …)`: one ReportRow per input record, in order. -/
def buildReportRows (productRows : List VariantRecord) (unitsSoldMap : SalesMap)
    (startSnapshot : Option Snapshot) : List ReportRow :=
  productRows.map (mkReportRow unitsSoldMap startSnapshot)

/-! ## Snapshot creation (`createSnapshot`, server.js lines 415-469) -/

/-- The quantity map accumulated from the fetched rows:
`snapMap.set(r.variantId, (snapMap.get(r.variantId) || 0) + (r.endingQty || 0))`. -/
def snapMapOf (rows : List VariantRecord) : SalesMap :=
  rows.foldl (fun m r => mapSet m r.variantId ((mapGet m r.variantId).getD 0 + r.endingQty)) []

/-- The durable file store: label → stored quantity map
(`fs.writeFileSync(snapshotPath(label), JSON.stringify(asObj))`). -/
abbrev FileStore := String → Option SalesMap

/-- One run of createSnapshot against the current remote catalog: fetch,
aggregate, overwrite the file record for the label, return the count of
distinct variants captured (`snapMap.size`). -/
def createSnapshot (store : FileStore) (label : String) (products : List Product) :
    FileStore × Nat :=
  let rows := fetchAllProductsAndInventory products
  let snapMap := snapMapOf rows
  (fun l => if l = label then some snapMap else store l, snapMap.length)

/-! ## Report endpoint (`app.post('/report')`, server.js lines 578-655) -/

/-- An empty JS dictionary object. -/
def emptyObj : Snapshot := fun _ => none

/-- `obj[k] = v`: later assignments overwrite earlier ones. -/
def objAssign (o : Snapshot) (k : String) (v : Int) : Snapshot :=
  fun x => if x = k then some v else o x

/-- The object built by the Mongo read loop
(`for await (const doc of cursor) startSnapshot[doc.variantId] = doc.qty`). -/
def objOfDocs (docs : List (String × Int)) : Snapshot :=
  docs.foldl (fun o e => objAssign o e.1 e.2) emptyObj

/-- Readback of the snapshot file's JSON object. -/
def objOfFile (entries : SalesMap) : Snapshot :=
  fun k => mapGet entries k

/-- The configured persistence: the Mongo `snapshots_inventory` collection
when a MONGODB_URI is set (label → list of {variantId, qty} documents),
and the file store. -/
structure Stores where
  mongoInv : Option (String → List (String × Int))
  fileStore : FileStore

/-- Snapshot resolution of server.js lines 592-627: prefer Mongo; treat a
zero-entry Mongo result as not found and fall back to the file; a missing
file leaves the snapshot null. -/
def resolveStartSnapshot (st : Stores) (label : String) : Option Snapshot :=
  let fromMongo : Option Snapshot :=
    match st.mongoInv with
    | some byLabel =>
        let docs := byLabel label
        if docs.length = 0 then none else some (objOfDocs docs)
    | none => none
  match fromMongo with
  | some snap => some snap
  | none =>
      match st.fileStore label with
      | some entries => some (objOfFile entries)
      | none => none

/-- The outcome of a /report request (keeping only the parts of the JSON
payload the claims speak about). -/
inductive ReportResponse
  | badRequest (error : String)
  | ok (rowCount : Nat) (rows : List ReportRow) (sample : List ReportRow)
deriving DecidableEq

/-- The /report handler on already-fetched remote data: reject a missing
since/until, otherwise build the rows against the resolved snapshot and
answer ok with the row count and a 50-row sample. -/
def handleReport (st : Stores) (products : List Product) (orders : List Order)
    (sinceISO untilISO : String) (startSnapshotLabel : Option String) : ReportResponse :=
  if sinceISO = "" ∨ untilISO = "" then .badRequest "Missing since/until (ISO)"
  else
    let productRows := fetchAllProductsAndInventory products
    let soldMap := fetchUnitsSold orders
    let startSnapshot : Option Snapshot :=
      match startSnapshotLabel with
      | some label => if label = "" then none else resolveStartSnapshot st label
      | none => none
    let rows := buildReportRows productRows soldMap startSnapshot
    .ok rows.length rows (rows.take 50)

/-! ## Export encoders (`writeCSV` / `writeXML`, server.js lines 495-519) -/

/-- A JS field value of a report row: string, number, or null. -/
inductive FieldValue
  | str (s : String)
  | int (n : Int)
  | null
deriving DecidableEq

/-- Render an optional string field. -/
def optStr : Option String → FieldValue
  | some s => .str s
  | none => .null

/-- Render an optional integer field. -/
def optInt : Option Int → FieldValue
  | some n => .int n
  | none => .null

/-- `r[c]`: property access on a report row object; an unknown name is
undefined (`none`). -/
def rowField (r : ReportRow) (c : String) : Option FieldValue :=
  if c = "vendor" then some (.str r.vendor)
  else if c = "vendor_invoice_date" then some (optStr r.vendor_invoice_date)
  else if c = "vendor_invoice_number" then some (optStr r.vendor_invoice_number)
  else if c = "product_title" then some (.str r.product_title)
  else if c = "product_variant_sku" then some (optStr r.product_variant_sku)
  else if c = "unit_cost" then some (optStr r.unit_cost)
  else if c = "unit_cost_currency" then some (optStr r.unit_cost_currency)
  else if c = "starting_inventory_qty" then some (optInt r.starting_inventory_qty)
  else if c = "ending_inventory_qty" then some (.int r.ending_inventory_qty)
  else if c = "units_sold" then some (.int r.units_sold)
  else none

/-- The `defaultFields` array of writeCSV (server.js lines 496-501). -/
def defaultFields : List String :=
  ["vendor", "vendor_invoice_date", "vendor_invoice_number",
   "product_title", "product_variant_sku",
   "unit_cost", "unit_cost_currency",
   "starting_inventory_qty", "ending_inventory_qty", "units_sold"]

/-- `(Array.isArray(columns) && columns.length) ? columns : defaultFields`;
`none` stands for an omitted or non-array columns value. -/
def selectedFields (columns : Option (List String)) : List String :=
  match columns with
  | some cs => if cs.length = 0 then defaultFields else cs
  | none => defaultFields

/-- The field projection the Json2Csv parser applies under a `fields`
configuration (library contract: each emitted CSV record carries exactly
the configured fields, in order). One emitted row is its named fields. -/
def writeCSVRows (rows : List ReportRow) (columns : Option (List String)) :
    List (List (String × Option FieldValue)) :=
  rows.map (fun r => (selectedFields columns).map (fun c => (c, rowField r c)))

/-- A ReportRow as the JS object literal of buildReportRows: its keys in
insertion order are exactly the ten default fields. -/
def rowObject (r : ReportRow) : List (String × Option FieldValue) :=
  [("vendor", some (.str r.vendor)),
   ("vendor_invoice_date", some (optStr r.vendor_invoice_date)),
   ("vendor_invoice_number", some (optStr r.vendor_invoice_number)),
   ("product_title", some (.str r.product_title)),
   ("product_variant_sku", some (optStr r.product_variant_sku)),
   ("unit_cost", some (optStr r.unit_cost)),
   ("unit_cost_currency", some (optStr r.unit_cost_currency)),
   ("starting_inventory_qty", some (optInt r.starting_inventory_qty)),
   ("ending_inventory_qty", some (.int r.ending_inventory_qty)),
   ("units_sold", some (.int r.units_sold))]

/-- The row objects handed to the XML builder (server.js lines 511-513):
with a non-empty columns array, each row is re-built with exactly the
requested properties in the requested order; otherwise the row objects are
passed through unchanged. -/
def writeXMLRows (rows : List ReportRow) (columns : Option (List String)) :
    List (List (String × Option FieldValue)) :=
  match columns with
  | some cs =>
      if cs.length = 0 then rows.map rowObject
      else rows.map (fun r => cs.map (fun c => (c, rowField r c)))
  | none => rows.map rowObject

/-! ## Download endpoints (server.js lines 522-563) -/

/-- The character class `[a-zA-Z0-9._-]` of safeBase's regex. -/
def safeBaseChar (c : Char) : Bool :=
  ('a' ≤ c && c ≤ 'z') || ('A' ≤ c && c ≤ 'Z') || ('0' ≤ c && c ≤ '9') ||
    c = '.' || c = '_' || c = '-'

/-- `String(name).replace(/[^a-zA-Z0-9._-]/g, '')`. -/
def safeBase (name : String) : String :=
  String.mk (name.data.filter safeBaseChar)

/-- `path.join(dir, component)` for a single separator-free component, on
normalized component lists: an empty or `.` component leaves the
directory, `..` pops one level, anything else descends. -/
def normJoin (dir : List String) (component : String) : List String :=
  if component = "" then dir
  else if component = "." then dir
  else if component = ".." then dir.dropLast
  else dir ++ [component]

/-- A read-only filesystem: resolved path → file content, if it exists. -/
abbrev FileSystem := List String → Option String

/-- What a download endpoint answers. -/
inductive DownloadResponse
  | notFound
  | sendFile (resolved : List String) (content : String)
deriving DecidableEq

/-- GET /download/csv/:base — sanitize the base, resolve it inside the
export directory with a fixed .csv extension, 404 when the file does not
exist, otherwise send its content. -/
def downloadCsv (fsys : FileSystem) (exportDir : List String) (baseParam : String) :
    DownloadResponse :=
  let base := safeBase baseParam
  let filePath := normJoin exportDir (base ++ ".csv")
  match fsys filePath with
  | none => .notFound
  | some content => .sendFile filePath content

/-- GET /download/xml/:base — same shape with a fixed .xml extension. -/
def downloadXml (fsys : FileSystem) (exportDir : List String) (baseParam : String) :
    DownloadResponse :=
  let base := safeBase baseParam
  let filePath := normJoin exportDir (base ++ ".xml")
  match fsys filePath with
  | none => .notFound
  | some content => .sendFile filePath content

/-! ## Concrete sample data used to instantiate the claims -/

/-- The variant of the spec's quantity-aggregation example: inventory
levels [{available:3},{available:5},{available:0}]. -/
def demoVariant : Variant where
  id := "gid://shopify/ProductVariant/1"
  sku := some "ABC"
  inventoryItem := some
    { tracked := true
      unitCost := none
      inventoryLevels := some
        [{ quantities := some [{ name := "available", quantity := 3 }] },
         { quantities := some [{ name := "available", quantity := 5 }] },
         { quantities := some [{ name := "available", quantity := 0 }] }] }

/-- An untracked variant with the same sku. -/
def demoUntrackedVariant : Variant where
  id := "gid://shopify/ProductVariant/2"
  sku := some "DEF"
  inventoryItem := some
    { tracked := false
      unitCost := none
      inventoryLevels := some [{ quantities := some [{ name := "available", quantity := 9 }] }] }

/-- A product holding one tracked and one untracked variant. -/
def demoProduct : Product where
  id := "gid://shopify/Product/1"
  title := "Shirt"
  vendor := "Acme"
  vendorInvoiceDate := some { value := "2024-01-15" }
  vendorInvoiceNumber := none
  variants := [demoVariant, demoUntrackedVariant]

/-- The catalog used by the concrete witnesses. -/
def demoCatalog : List Product := [demoProduct]

/-- A line item carrying both a variant id and a sku. -/
def demoLineItem : LineItem where
  quantity := 2
  sku := some "ABC"
  variant := some { id := "gid://shopify/ProductVariant/1", sku := some "ABC" }

/-- A catalog record as produced by the demo catalog's tracked variant. -/
def demoRecord : VariantRecord :=
  variantToRecord demoProduct demoVariant

/-- A stores configuration whose Mongo collection is configured but holds
nothing, and whose file store is empty. -/
def demoEmptyStores : Stores where
  mongoInv := some (fun _ => [])
  fileStore := fun _ => none

/-- A concrete report row for the encoder witnesses. -/
def demoRow : ReportRow := mkReportRow ([] : SalesMap) none demoRecord

/-- Remove from a product exactly the variants the catalog fetch skips. -/
def dropUntracked (p : Product) : Product :=
  { p with variants := p.variants.filter trackedTrue }

/-! ## Helper lemmas -/

/-- Folding addition of a projection over a list sums the projections. -/
theorem foldl_add_proj {α : Type} (f : α → Int) (xs : List α) (a : Int) :
    xs.foldl (fun s x => s + f x) a = a + (xs.map f).sum := by
  induction xs generalizing a with
  | nil => simp
  | cons x xs ih => simp [ih, add_assoc]

/-- Setting a key makes it the retrieved value. -/
theorem mapGet_mapSet_self (m : SalesMap) (k : String) (v : Int) :
    mapGet (mapSet m k v) k = some v := by
  induction m with
  | nil => simp [mapSet, mapGet, List.find?]
  | cons e rest ih =>
      by_cases h : e.1 = k
      · simp [mapSet, h, mapGet, List.find?]
      · simp only [mapSet, if_neg h]
        simp only [mapGet, List.find?] at ih ⊢
        simp [h, ih]

/-- Setting one key leaves every other key's retrieved value unchanged. -/
theorem mapGet_mapSet_ne (m : SalesMap) (k k' : String) (v : Int) (h : k' ≠ k) :
    mapGet (mapSet m k v) k' = mapGet m k' := by
  induction m with
  | nil => simp [mapSet, mapGet, List.find?, h, Ne.symm h]
  | cons e rest ih =>
      by_cases he : e.1 = k
      · subst he
        simp [mapSet, mapGet, List.find?, h, Ne.symm h]
      · simp only [mapSet, if_neg he]
        by_cases he' : e.1 = k'
        · simp [mapGet, List.find?, he']
        · simp only [mapGet, List.find?] at ih ⊢
          simp [he', ih]

/-- Setting a key leaves the key list unchanged when the key is present,
else appends the key. -/
theorem keys_mapSet (m : SalesMap) (k : String) (v : Int) :
    (mapSet m k v).map Prod.fst =
      if k ∈ m.map Prod.fst then m.map Prod.fst else m.map Prod.fst ++ [k] := by
  induction m with
  | nil => simp [mapSet]
  | cons e rest ih =>
      by_cases he : e.1 = k
      · simp [mapSet, he]
      · by_cases hk : k ∈ rest.map Prod.fst
        · simp [mapSet, he, ih, hk, Ne.symm he]
        · simp [mapSet, he, ih, hk, Ne.symm he]

/-- Setting a key preserves distinctness of the key list. -/
theorem keys_nodup_mapSet (m : SalesMap) (k : String) (v : Int)
    (h : (m.map Prod.fst).Nodup) : ((mapSet m k v).map Prod.fst).Nodup := by
  rw [keys_mapSet]
  split
  · exact h
  · next hk => simp [List.nodup_append, h, hk]

/-- Setting a key inserts it into the key set. -/
theorem keys_toFinset_mapSet (m : SalesMap) (k : String) (v : Int) :
    ((mapSet m k v).map Prod.fst).toFinset = insert k (m.map Prod.fst).toFinset := by
  rw [keys_mapSet]
  split
  · next hk => rw [Finset.insert_eq_self.mpr (by simpa using hk)]
  · ext a
    simp [or_comm]

/-- The snapshot fold keeps the key list distinct. -/
theorem snapFold_keys_nodup (rows : List VariantRecord) (m : SalesMap)
    (h : (m.map Prod.fst).Nodup) :
    ((rows.foldl
        (fun m r => mapSet m r.variantId ((mapGet m r.variantId).getD 0 + r.endingQty))
        m).map Prod.fst).Nodup := by
  induction rows generalizing m with
  | nil => exact h
  | cons r rows ih => exact ih _ (keys_nodup_mapSet _ _ _ h)

/-- The snapshot fold's key set is the accumulator's key set joined with
the variant ids of the rows. -/
theorem snapFold_keys_toFinset (rows : List VariantRecord) (m : SalesMap) :
    ((rows.foldl
        (fun m r => mapSet m r.variantId ((mapGet m r.variantId).getD 0 + r.endingQty))
        m).map Prod.fst).toFinset =
      (m.map Prod.fst).toFinset ∪ (rows.map (fun r => r.variantId)).toFinset := by
  induction rows generalizing m with
  | nil => simp
  | cons r rows ih =>
      simp only [List.foldl_cons, ih, keys_toFinset_mapSet, List.map_cons, List.toFinset_cons]
      ext a
      simp

/-- The snapshot map has one entry per distinct variant id. -/
theorem snapMapOf_length (rows : List VariantRecord) :
    (snapMapOf rows).length = (rows.map (fun r => r.variantId)).toFinset.card := by
  have h1 : ((snapMapOf rows).map Prod.fst).Nodup :=
    snapFold_keys_nodup rows [] (by simp)
  have h2 : ((snapMapOf rows).map Prod.fst).toFinset =
      (rows.map (fun r => r.variantId)).toFinset := by
    simpa using snapFold_keys_toFinset rows []
  calc (snapMapOf rows).length
      = ((snapMapOf rows).map Prod.fst).length := (List.length_map _ _).symm
    _ = ((snapMapOf rows).map Prod.fst).toFinset.card := (List.toFinset_card_of_nodup h1).symm
    _ = (rows.map (fun r => r.variantId)).toFinset.card := by rw [h2]

/-- takeWhile stops exactly at the first failing element. -/
theorem takeWhile_append_stop (p : Char → Bool) (xs ys : List Char) (c : Char)
    (hxs : ∀ a ∈ xs, p a = true) (hc : p c = false) :
    (xs ++ c :: ys).takeWhile p = xs := by
  induction xs with
  | nil => simp [List.takeWhile_cons, hc]
  | cons a as ih =>
      have ha : p a = true := hxs a (by simp)
      simp only [List.cons_append, List.takeWhile_cons, ha, if_true]
      rw [ih (fun b hb => hxs b (by simp [hb]))]

/-- takeWhile is idempotent. -/
theorem takeWhile_self (p : Char → Bool) (l : List Char) :
    (l.takeWhile p).takeWhile p = l.takeWhile p := by
  induction l with
  | nil => rfl
  | cons a as ih =>
      by_cases h : p a
      · simp [List.takeWhile_cons, h, ih]
      · simp [List.takeWhile_cons, h]

/-- Character data of a string concatenation. -/
theorem data_append (s t : String) : (s ++ t).data = s.data ++ t.data := rfl

/-- Rebuilding a string from its data is the identity. -/
theorem mk_data (s : String) : String.mk s.data = s := rfl

/-- toDateOnly cuts an instant of the form date ++ "T" ++ time back to its
date part, whenever the date part itself contains no letter T. -/
theorem toDateOnly_append_time (d t : String) (hd : 'T' ∉ d.data) :
    toDateOnly (d ++ "T" ++ t) = d := by
  have hdata : (d ++ "T" ++ t).data = d.data ++ 'T' :: t.data := by
    simp [data_append]
  unfold toDateOnly
  rw [hdata, takeWhile_append_stop]
  · intro a ha
    simp only [decide_eq_true_eq]
    intro hEq
    exact hd (hEq ▸ ha)
  · simp

/-- toDateOnly is idempotent: the date part of a date part is itself. -/
theorem toDateOnly_self (s : String) : toDateOnly (toDateOnly s) = toDateOnly s := by
  unfold toDateOnly
  rw [takeWhile_self]

/-- A name extended with the fixed .csv or .xml extension is never empty
and never one of the special path components. -/
theorem append_ext_ne_special (s ext : String) (hlen : ext.length = 4) :
    s ++ ext ≠ "" ∧ s ++ ext ≠ "." ∧ s ++ ext ≠ ".." := by
  refine ⟨fun h => ?_, fun h => ?_, fun h => ?_⟩
  · have hl := congrArg String.length h
    rw [String.length_append, hlen] at hl
    have h0 : ("" : String).length = 0 := rfl
    rw [h0] at hl
    omega
  · have hl := congrArg String.length h
    rw [String.length_append, hlen] at hl
    have h0 : ("." : String).length = 1 := rfl
    rw [h0] at hl
    omega
  · have hl := congrArg String.length h
    rw [String.length_append, hlen] at hl
    have h0 : (".." : String).length = 2 := rfl
    rw [h0] at hl
    omega

/-! ## Claim theorems -/

/-- C1: for every input sequence of VariantRecords and any sales map and
any snapshot (including null), buildReportRows returns exactly one
ReportRow per input VariantRecord, in the same order as the input — the
output has the input's length and its i-th element is built from the i-th
input record — so no record is dropped, duplicated, or omitted,
regardless of whether sales or snapshot data is present for it. -/
theorem c1_join_completeness (productRows : List VariantRecord) (m : SalesMap)
    (snap : Option Snapshot) :
    (buildReportRows productRows m snap).length = productRows.length ∧
    ∀ i : Nat, (buildReportRows productRows m snap)[i]? =
      (productRows[i]?).map (mkReportRow m snap) := by
  refine ⟨by simp [buildReportRows], fun i => ?_⟩
  simp [buildReportRows]

/-- C2: every variant's endingQty is the sum over its inventory levels of
the quantity named "available", a level with no such entry (or no
quantities list) contributing zero through levelAvailable; in particular
the variant with levels [{available:3},{available:5},{available:0}] has
endingQty = 8. -/
theorem c2_quantity_aggregation :
    (∀ v : Variant, endingQtyOf v = ((variantLevels v).map levelAvailable).sum) ∧
    endingQtyOf demoVariant = 8 := by
  refine ⟨fun v => ?_, by decide⟩
  unfold endingQtyOf
  rw [foldl_add_proj]
  simp

/-- C8: a VariantRecord whose resolved join key has no entry in the sales
aggregate yields a ReportRow with units_sold = 0 — an integer zero by the
very type of the field, never null, in contrast to
starting_inventory_qty which is an Option. -/
theorem c8_sales_zero_default (m : SalesMap) (snap : Option Snapshot) (r : VariantRecord)
    (h : ((rowJoinKey r).all fun k => (mapGet m k).isNone) = true) :
    (mkReportRow m snap r).units_sold = 0 := by
  cases hk : rowJoinKey r with
  | none => simp [mkReportRow, hk]
  | some k =>
      rw [hk] at h
      have hmk : mapGet m k = none := by
        simpa [Option.all] using h
      simp [mkReportRow, hk, hmk]

/-- Witness for C8: the demo record's key resolves to its variant id,
which the empty sales map does not hold, and its row's units_sold is 0. -/
theorem c8_sales_zero_default_witness :
    (((rowJoinKey demoRecord).all fun k => (mapGet ([] : SalesMap) k).isNone) = true) ∧
    (mkReportRow ([] : SalesMap) none demoRecord).units_sold = 0 :=
  ⟨by decide, c8_sales_zero_default ([] : SalesMap) none demoRecord (by decide)⟩

/-- C3: join keys resolve in order — a line item's variant id when
present (and usable), else "SKU:" ++ sku when a sku is present, else no
key at all, in which case the item contributes nothing to the aggregate;
an item carrying both a variant id and a sku is folded in exactly once,
under the variant id, leaving the SKU key's entry untouched; and the
catalog-side key of the Report Builder follows the same fallback chain. -/
theorem c3_join_key_resolution :
    (∀ li : LineItem, ∀ vr : VariantRef, li.variant = some vr → vr.id ≠ "" →
      lineItemKey li = some vr.id) ∧
    (∀ li : LineItem, ∀ s : String, li.variant = none → li.sku = some s → s ≠ "" →
      lineItemKey li = some ("SKU:" ++ s)) ∧
    (∀ li : LineItem, li.variant = none → li.sku = none →
      lineItemKey li = none ∧ ∀ m : SalesMap, addLineItem m li = m) ∧
    (∀ (m : SalesMap) (li : LineItem) (vr : VariantRef) (s : String),
      li.variant = some vr → vr.id ≠ "" → li.sku = some s →
      addLineItem m li = mapSet m vr.id ((mapGet m vr.id).getD 0 + li.quantity) ∧
      (("SKU:" ++ s) ≠ vr.id →
        mapGet (addLineItem m li) ("SKU:" ++ s) = mapGet m ("SKU:" ++ s))) ∧
    (∀ r : VariantRecord, ∀ q : Int, ∀ vsku : Option String,
      rowJoinKey r = lineItemKey
        { quantity := q, sku := r.variantSku,
          variant := some { id := r.variantId, sku := vsku } }) := by
  refine ⟨?_, ?_, ?_, ?_, ?_⟩
  · intro li vr hv hid
    simp [lineItemKey, hv, hid]
  · intro li s hv hs hne
    simp [lineItemKey, hv, hs, hne]
  · intro li hv hs
    refine ⟨by simp [lineItemKey, hv, hs], fun m => ?_⟩
    simp [addLineItem, lineItemKey, hv, hs]
  · intro m li vr s hv hid hs
    have hkey : lineItemKey li = some vr.id := by simp [lineItemKey, hv, hid]
    refine ⟨by simp [addLineItem, hkey], fun hne => ?_⟩
    simp only [addLineItem, hkey]
    exact mapGet_mapSet_ne m vr.id ("SKU:" ++ s) _ hne
  · intro r q vsku
    by_cases hid : r.variantId = ""
    · cases hsku : r.variantSku with
      | none => simp [rowJoinKey, lineItemKey, hid, hsku]
      | some s => simp [rowJoinKey, lineItemKey, hid, hsku]
    · simp [rowJoinKey, lineItemKey, hid]

/-- Witness for C3: a concrete line item carrying both a variant id and a
sku is counted once under the variant id and not under the SKU key. -/
theorem c3_join_key_resolution_witness :
    (addLineItem ([] : SalesMap) demoLineItem =
      mapSet ([] : SalesMap) "gid://shopify/ProductVariant/1"
        ((mapGet ([] : SalesMap) "gid://shopify/ProductVariant/1").getD 0 +
          demoLineItem.quantity)) ∧
    mapGet (addLineItem ([] : SalesMap) demoLineItem) ("SKU:" ++ "ABC") =
      mapGet ([] : SalesMap) ("SKU:" ++ "ABC") :=
  ⟨(c3_join_key_resolution.2.2.2.1 ([] : SalesMap) demoLineItem
      { id := "gid://shopify/ProductVariant/1", sku := some "ABC" } "ABC"
      rfl (by decide) rfl).1,
   (c3_join_key_resolution.2.2.2.1 ([] : SalesMap) demoLineItem
      { id := "gid://shopify/ProductVariant/1", sku := some "ABC" } "ABC"
      rfl (by decide) rfl).2 (by decide)⟩

/-- C9: with a supplied non-empty columns list, both encoders emit for
every row exactly the requested fields in the requested order and nothing
else; with columns omitted (or empty), both fall back to the fixed
ten-field default set and order. -/
theorem c9_column_projection (rows : List ReportRow) (cols : List String) (hc : cols ≠ []) :
    (∀ er ∈ writeCSVRows rows (some cols), er.map Prod.fst = cols) ∧
    (∀ er ∈ writeXMLRows rows (some cols), er.map Prod.fst = cols) ∧
    (∀ er ∈ writeCSVRows rows none, er.map Prod.fst = defaultFields) ∧
    (∀ er ∈ writeXMLRows rows none, er.map Prod.fst = defaultFields) ∧
    (∀ er ∈ writeCSVRows rows (some []), er.map Prod.fst = defaultFields) ∧
    (∀ er ∈ writeXMLRows rows (some []), er.map Prod.fst = defaultFields) := by
  have hlen : ¬ cols.length = 0 := fun h => hc (List.length_eq_zero.mp h)
  have hfst : ∀ (r : ReportRow) (cs : List String),
      (cs.map (fun c => (c, rowField r c))).map Prod.fst = cs := by
    intro r cs
    induction cs with
    | nil => rfl
    | cons c cs ih => simp [ih]
  have hobj : ∀ r : ReportRow, (rowObject r).map Prod.fst = defaultFields := by
    intro r
    simp [rowObject, defaultFields]
  refine ⟨?_, ?_, ?_, ?_, ?_, ?_⟩
  · intro er her
    obtain ⟨r, _, rfl⟩ := List.mem_map.mp her
    simpa [selectedFields, hlen] using hfst r (selectedFields (some cols))
  · intro er her
    rw [writeXMLRows] at her
    rw [if_neg hlen] at her
    obtain ⟨r, _, rfl⟩ := List.mem_map.mp her
    exact hfst r cols
  · intro er her
    obtain ⟨r, _, rfl⟩ := List.mem_map.mp her
    simpa [selectedFields] using hfst r (selectedFields none)
  · intro er her
    rw [writeXMLRows] at her
    obtain ⟨r, _, rfl⟩ := List.mem_map.mp her
    exact hobj r
  · intro er her
    obtain ⟨r, _, rfl⟩ := List.mem_map.mp her
    simpa [selectedFields] using hfst r (selectedFields (some []))
  · intro er her
    rw [writeXMLRows] at her
    simp only [List.length_nil, if_pos rfl] at her
    obtain ⟨r, _, rfl⟩ := List.mem_map.mp her
    exact hobj r

/-- Witness for C9: requesting columns ["vendor", "units_sold"] on a
concrete row yields exactly those two fields in that order. -/
theorem c9_column_projection_witness :
    (["vendor", "units_sold"].map (fun c => (c, rowField demoRow c))).map Prod.fst =
      ["vendor", "units_sold"] :=
  (c9_column_projection [demoRow] ["vendor", "units_sold"] (by decide)).1
    (["vendor", "units_sold"].map (fun c => (c, rowField demoRow c))) (by decide)

/-- C10: safeBase keeps only characters of the class [a-zA-Z0-9._-], so in
particular no path separator survives; the path each download endpoint
reads is the export directory extended by exactly the sanitized base plus
its fixed extension — never a path outside the export directory — and a
missing file makes the endpoint answer not-found without reading
anything. -/
theorem c10_download_safety (fsys : FileSystem) (exportDir : List String) (baseParam : String) :
    (∀ c ∈ (safeBase baseParam).data, safeBaseChar c = true) ∧
    ('/' ∉ (safeBase baseParam).data) ∧
    normJoin exportDir (safeBase baseParam ++ ".csv") =
      exportDir ++ [safeBase baseParam ++ ".csv"] ∧
    normJoin exportDir (safeBase baseParam ++ ".xml") =
      exportDir ++ [safeBase baseParam ++ ".xml"] ∧
    (fsys (exportDir ++ [safeBase baseParam ++ ".csv"]) = none →
      downloadCsv fsys exportDir baseParam = .notFound) ∧
    (fsys (exportDir ++ [safeBase baseParam ++ ".xml"]) = none →
      downloadXml fsys exportDir baseParam = .notFound) := by
  have hchars : ∀ c ∈ (safeBase baseParam).data, safeBaseChar c = true := by
    intro c hcMem
    have : c ∈ baseParam.data.filter safeBaseChar := hcMem
    exact (List.mem_filter.mp this).2
  have hcsv := append_ext_ne_special (safeBase baseParam) ".csv" rfl
  have hxml := append_ext_ne_special (safeBase baseParam) ".xml" rfl
  have hjoinCsv : normJoin exportDir (safeBase baseParam ++ ".csv") =
      exportDir ++ [safeBase baseParam ++ ".csv"] := by
    rw [normJoin, if_neg hcsv.1, if_neg hcsv.2.1, if_neg hcsv.2.2]
  have hjoinXml : normJoin exportDir (safeBase baseParam ++ ".xml") =
      exportDir ++ [safeBase baseParam ++ ".xml"] := by
    rw [normJoin, if_neg hxml.1, if_neg hxml.2.1, if_neg hxml.2.2]
  refine ⟨hchars, ?_, hjoinCsv, hjoinXml, ?_, ?_⟩
  · intro hmem
    have := hchars '/' hmem
    simp [safeBaseChar] at this
  · intro hfs
    rw [downloadCsv, hjoinCsv, hfs]
  · intro hfs
    rw [downloadXml, hjoinXml, hfs]

/-- Witness for C10: a traversal attempt on an empty filesystem is
sanitized to a name inside the export directory and answered 404. -/
theorem c10_download_safety_witness :
    ('/' ∉ (safeBase "../secret").data) ∧
    normJoin ["app", "exports"] (safeBase "../secret" ++ ".csv") =
      ["app", "exports"] ++ [safeBase "../secret" ++ ".csv"] ∧
    downloadCsv (fun _ => none) ["app", "exports"] "../secret" = .notFound :=
  ⟨(c10_download_safety (fun _ => none) ["app", "exports"] "../secret").2.1,
   (c10_download_safety (fun _ => none) ["app", "exports"] "../secret").2.2.1,
   (c10_download_safety (fun _ => none) ["app", "exports"] "../secret").2.2.2.2.1 rfl⟩

/-- C6: the sales fetch reduces both caller instants to their calendar
date before building the orders query — truncating again changes nothing,
and two instants pairs sharing their date parts yield the same query
string — and (modelled from the spec, the remote side being an external
collaborator) that query selects exactly the orders created within
[sinceDate, untilDate] inclusive that are paid and not cancelled. -/
theorem c6_date_truncation :
    (∀ sinceISO untilISO : String,
      ordersSearchQuery sinceISO untilISO =
        "created_at:" ++ toDateOnly sinceISO ++ ".." ++ toDateOnly untilISO ++
          " financial_status:paid -status:cancelled") ∧
    (∀ sinceISO untilISO : String,
      ordersSearchQuery sinceISO untilISO =
        ordersSearchQuery (toDateOnly sinceISO) (toDateOnly untilISO)) ∧
    (∀ ds dt ts1 tu1 ts2 tu2 : String, 'T' ∉ ds.data → 'T' ∉ dt.data →
      ordersSearchQuery (ds ++ "T" ++ ts1) (dt ++ "T" ++ tu1) =
        ordersSearchQuery (ds ++ "T" ++ ts2) (dt ++ "T" ++ tu2)) ∧
    (∀ (sinceISO untilISO : String) (o : OrderMeta),
      searchSelects (toDateOnly sinceISO) (toDateOnly untilISO) o = true ↔
        (toDateOnly sinceISO ≤ o.createdDate ∧ o.createdDate ≤ toDateOnly untilISO ∧
          o.financialStatus = "paid" ∧ o.cancelled = false)) := by
  refine ⟨fun s u => rfl, ?_, ?_, ?_⟩
  · intro s u
    unfold ordersSearchQuery
    rw [toDateOnly_self, toDateOnly_self]
  · intro ds dt ts1 tu1 ts2 tu2 hs ht
    unfold ordersSearchQuery
    rw [toDateOnly_append_time ds ts1 hs, toDateOnly_append_time dt tu1 ht,
        toDateOnly_append_time ds ts2 hs, toDateOnly_append_time dt tu2 ht]
  · intro s u o
    unfold searchSelects
    simp [and_assoc, Bool.not_eq_true']

/-- Witness for C6: two request windows differing only in time-of-day
produce the same orders search string. -/
theorem c6_date_truncation_witness :
    ordersSearchQuery ("2024-03-01" ++ "T" ++ "00:00:00Z") ("2024-03-31" ++ "T" ++ "10:00:00Z") =
      ordersSearchQuery ("2024-03-01" ++ "T" ++ "12:34:56Z") ("2024-03-31" ++ "T" ++ "23:59:59Z") :=
  c6_date_truncation.2.2.1 "2024-03-01" "2024-03-31" "00:00:00Z" "10:00:00Z"
    "12:34:56Z" "23:59:59Z" (by decide) (by decide)

/-- C4: a report request naming a snapshot label held by no configured
store still succeeds with an ok response, and every returned row carries a
null starting quantity. -/
theorem c4_snapshot_missing (st : Stores) (products : List Product) (orders : List Order)
    (sinceISO untilISO : String) (label : String)
    (hs : sinceISO ≠ "") (hu : untilISO ≠ "")
    (hm : ∀ byLabel, st.mongoInv = some byLabel → (byLabel label).length = 0)
    (hf : st.fileStore label = none) :
    ∃ rows : List ReportRow,
      handleReport st products orders sinceISO untilISO (some label) =
        .ok rows.length rows (rows.take 50) ∧
      ∀ row ∈ rows, row.starting_inventory_qty = none := by
  have hres : resolveStartSnapshot st label = none := by
    unfold resolveStartSnapshot
    cases hmi : st.mongoInv with
    | none => simp [hf]
    | some byLabel => simp [hm byLabel hmi, hf]
  have hsnap : (if label = "" then none else resolveStartSnapshot st label) =
      (none : Option Snapshot) := by
    split
    · rfl
    · exact hres
  refine ⟨buildReportRows (fetchAllProductsAndInventory products) (fetchUnitsSold orders) none,
    ?_, ?_⟩
  · unfold handleReport
    rw [if_neg (by simp [hs, hu])]
    simp only [hsnap]
  · intro row hrow
    obtain ⟨r, _, rfl⟩ := List.mem_map.mp hrow
    rfl

/-- Witness for C4: a concrete request against a configured-but-empty
Mongo store and an empty file store succeeds with all-null starting
quantities. -/
theorem c4_snapshot_missing_witness :
    ∃ rows : List ReportRow,
      handleReport demoEmptyStores demoCatalog [] "2024-03-01" "2024-03-31"
          (some "2024-02-01") =
        .ok rows.length rows (rows.take 50) ∧
      ∀ row ∈ rows, row.starting_inventory_qty = none :=
  c4_snapshot_missing demoEmptyStores demoCatalog [] "2024-03-01" "2024-03-31" "2024-02-01"
    (by decide) (by decide)
    (fun byLabel h => by rw [← Option.some.inj h]; rfl)
    rfl

/-- C5: every VariantRecord the catalog fetch produces stems from a
variant whose inventory item reports tracked = true, and erasing the
untracked variants from the catalog leaves the fetch output unchanged —
an untracked variant contributes nothing downstream, whatever its sales
history. -/
theorem c5_untracked_excluded (products : List Product) :
    (∀ r ∈ fetchAllProductsAndInventory products,
      ∃ p ∈ products, ∃ v ∈ p.variants, trackedTrue v = true ∧ r = variantToRecord p v) ∧
    fetchAllProductsAndInventory (products.map dropUntracked) =
      fetchAllProductsAndInventory products := by
  constructor
  · intro r hr
    rw [fetchAllProductsAndInventory] at hr
    simp only [List.mem_flatten, List.mem_map] at hr
    obtain ⟨l, ⟨p, hp, rfl⟩, hrl⟩ := hr
    obtain ⟨v, hv, rfl⟩ := List.mem_map.mp hrl
    have hvf := List.mem_filter.mp hv
    exact ⟨p, hp, v, hvf.1, hvf.2, rfl⟩
  · rw [fetchAllProductsAndInventory, fetchAllProductsAndInventory, List.map_map]
    congr 1
    apply List.map_congr_left
    intro p _
    show ((dropUntracked p).variants.filter trackedTrue).map (variantToRecord (dropUntracked p)) =
      (p.variants.filter trackedTrue).map (variantToRecord p)
    have hvars : (dropUntracked p).variants.filter trackedTrue =
        p.variants.filter trackedTrue := by
      simp [dropUntracked, List.filter_filter]
    rw [hvars]
    apply List.map_congr_left
    intro v _
    rfl

/-- Witness for C5: in the demo catalog the produced record stems from the
tracked variant, and erasing the untracked variant changes nothing. -/
theorem c5_untracked_excluded_witness :
    (∃ p ∈ demoCatalog, ∃ v ∈ p.variants, trackedTrue v = true ∧
      demoRecord = variantToRecord p v) ∧
    fetchAllProductsAndInventory (demoCatalog.map dropUntracked) =
      fetchAllProductsAndInventory demoCatalog :=
  ⟨(c5_untracked_excluded demoCatalog).1 demoRecord (by decide),
   (c5_untracked_excluded demoCatalog).2⟩

/-- C7: snapshot creation is idempotent against an unchanged catalog —
each run stores the aggregated quantity map under the label, a second run
overwrites the first's record with the identical map (last write wins),
and each run's count is the number of distinct variant ids captured. -/
theorem c7_snapshot_idempotence (store : FileStore) (label : String)
    (products : List Product) :
    (createSnapshot store label products).1 label =
      some (snapMapOf (fetchAllProductsAndInventory products)) ∧
    (createSnapshot (createSnapshot store label products).1 label products).1 label =
      (createSnapshot store label products).1 label ∧
    (createSnapshot store label products).2 =
      ((fetchAllProductsAndInventory products).map (fun r => r.variantId)).toFinset.card ∧
    (createSnapshot (createSnapshot store label products).1 label products).2 =
      (createSnapshot store label products).2 := by
  refine ⟨?_, ?_, ?_, rfl⟩
  · simp [createSnapshot]
  · simp [createSnapshot]
  · exact snapMapOf_length _

end InventoryExport
